import Mathlib

/-!
Verification of the request lifecycle engine of `node-runtime/src/http-server.ts`
(`SdkgenHttpServer`): protocol-version classification, header policy, route
resolution, the call-hook dispatch pipeline, declared-throws enforcement, and
per-version response encoding.

Every definition below is a shallow embedding of a function or code fragment of
that file; source line numbers are given in the doc comments.  JavaScript
strings become `String`, JS `Map` insertion-ordered maps become association
lists, JS exceptions become `Except`, regular expressions become abstract
first-match functions `String → Option (Nat × Nat)` (match index and matched
substring length), and real-time data (durations, hostnames) is omitted or kept
abstract because no claim depends on it.
-/

/-! ## String primitives (JS `toLowerCase`, `trim`, `startsWith`) -/

/-- Model of JavaScript `String.prototype.toLowerCase`, defined on the
character list so that it evaluates by kernel reduction. -/
def jsToLowerCase (s : String) : String :=
  ⟨s.data.map Char.toLower⟩

/-- Model of JavaScript `String.prototype.trim`: drop leading and trailing
whitespace. -/
def jsTrim (s : String) : String :=
  ⟨List.reverse (List.dropWhile Char.isWhitespace
    (List.reverse (List.dropWhile Char.isWhitespace s.data)))⟩

/-- Model of JavaScript `String.prototype.startsWith`, as a character-list
prefix test. -/
def strStartsWith (s pre : String) : Bool :=
  pre.data.isPrefixOf s.data

/-! ## JSON values and field access (`JSON.parse` output) -/

/-- A parsed JSON value.  Numbers are modelled as integers: every number the
server's classification logic compares against is a small integer. -/
inductive Json where
  | jnull
  | jbool (b : Bool)
  | jnum (n : Int)
  | jstr (s : String)
  | jarr (elems : List Json)
  | jobj (fields : List (String × Json))

/-- JavaScript `"key" in parsed` on an object: the key is present among the
object's fields. -/
def jsIn (key : String) (fields : List (String × Json)) : Bool :=
  fields.any (fun f => f.1 == key)

/-- JavaScript property read `parsed.key` on an object produced by
`JSON.parse` (duplicate keys: last occurrence wins); absent keys give
`undefined`, modelled as `jnull` and only ever used under a `jsIn` guard. -/
def jsGet (key : String) (fields : List (String × Json)) : Json :=
  match fields.reverse.find? (fun f => f.1 == key) with
  | some f => f.2
  | none => Json.jnull

/-- `identifyRequestVersion` (http-server.ts lines 402–414): classify a parsed
POST body.  An explicit `version` field is returned verbatim; otherwise a
`requestId` field means version 2; otherwise a `device` field means version 1;
otherwise version 3. -/
def identifyRequestVersion (parsed : List (String × Json)) : Json :=
  if jsIn "version" parsed then jsGet "version" parsed
  else if jsIn "requestId" parsed then Json.jnum 2
  else if jsIn "device" parsed then Json.jnum 1
  else Json.jnum 3

/-! ## Header policy state (`this.headers`, `addHeader`, lines 22 and 140–149) -/

/-- JS `Map.prototype.get` on an insertion-ordered association list. -/
def mapGet (m : List (String × String)) (k : String) : Option String :=
  match m.find? (fun p => p.1 == k) with
  | some p => some p.2
  | none => none

/-- JS `Map.prototype.set`: replace in place if the key exists, else append. -/
def mapSet (m : List (String × String)) (k v : String) : List (String × String) :=
  match m with
  | [] => [(k, v)]
  | p :: rest => if p.1 == k then (k, v) :: rest else p :: mapSet rest k v

/-- The `cleanHeader` computation of `addHeader` (line 141):
`header.toLowerCase().trim()`. -/
def cleanHeader (header : String) : String :=
  jsTrim (jsToLowerCase header)

/-- `addHeader` (lines 140–149).  JS truthiness: an existing *empty* value is
falsy, so the `else` branch stores the new value without joining. -/
def addHeader (m : List (String × String)) (header value : String) :
    List (String × String) :=
  match mapGet m (cleanHeader header) with
  | some existing =>
    if existing == "" then mapSet m (cleanHeader header) value
    else mapSet m (cleanHeader header) (existing ++ ", " ++ value)
  | none => mapSet m (cleanHeader header) value

/-! ## Route table (`handlers`, `addHttpHandler`, `findBestHandler`,
lines 24–28, 151–185) -/

/-- A route matcher: an exact path string or a regular expression.  A regular
expression is abstracted as its first-match function: on a given input it
yields `some (index, length)` of the first match, or `none`. -/
inductive Matcher where
  | str (s : String)
  | pat (re : String → Option (Nat × Nat))

/-- One entry of the ordered handler registry (lines 24–28).  The handler
function itself is irrelevant to resolution and is abstracted by a tag. -/
structure Handler where
  method : String
  matcher : Matcher
  tag : Nat

/-- The matcher-acceptance filter of `findBestHandler` (lines 162–168):
a string matcher requires `matcher === path`; a pattern matcher requires
`path.search(matcher) === 0` (JS `search` gives the first-match index, or
`-1` when there is no match). -/
def matcherAccepts (path : String) : Matcher → Bool
  | .str s => s == path
  | .pat re =>
    ((match re path with
      | some m => (m.1 : Int)
      | none => (-1 : Int)) == (0 : Int))

/-- `path.match(re)?.[0]?.length ?? 0` (lines 178–181): the length of the
first matched substring, or `0` when there is no match.  Never evaluated on a
string matcher by the source (type guards rule it out); `0` there is a
placeholder. -/
def matchLength (path : String) : Matcher → Nat
  | .str _ => 0
  | .pat re =>
    match re path with
    | some m => m.2
    | none => 0

/-- The sort comparator of `findBestHandler` (lines 169–182): two exact
strings tie, an exact string sorts before a pattern, and patterns sort by
descending first-match length. -/
def handlerCompare (path : String) (a b : Handler) : Int :=
  match a.matcher, b.matcher with
  | .str _, .str _ => 0
  | .str _, .pat _ => -1
  | .pat _, .str _ => 1
  | .pat _, .pat _ =>
    (matchLength path b.matcher : Int) - (matchLength path a.matcher : Int)

/-- Stable insertion of `x` into an already-sorted list under comparator `c`:
`x` goes before the first element it does not strictly follow.  Together with
`jsSort` this models JavaScript's stable `Array.prototype.sort`. -/
def jsInsert (c : α → α → Int) (x : α) : List α → List α
  | [] => [x]
  | y :: ys => if c x y ≤ 0 then x :: y :: ys else y :: jsInsert c x ys

/-- Stable comparator sort, modelling JS `Array.prototype.sort` (stable per
the ECMAScript specification). -/
def jsSort (c : α → α → Int) : List α → List α
  | [] => []
  | x :: xs => jsInsert c x (jsSort c xs)

/-- The two filters of `findBestHandler` (lines 160–168): keep handlers whose
method equals the request method and whose matcher accepts the path. -/
def candidates (handlers : List Handler) (method path : String) : List Handler :=
  (handlers.filter (fun h => h.method == method)).filter
    (fun h => matcherAccepts path h.matcher)

/-- `findBestHandler` (lines 159–185): filter, stable-sort by the comparator,
and return the first survivor (`matchingHandlers.length ? matchingHandlers[0]
: null`). -/
def findBestHandler (handlers : List Handler) (method path : String) :
    Option Handler :=
  (jsSort (handlerCompare path) (candidates handlers method path)).head?

/-- Whether a handler entry carries an exact-string matcher. -/
def isStrHandler (h : Handler) : Bool :=
  match h.matcher with
  | .str _ => true
  | .pat _ => false

/-- The head of a stable comparator sort, expressed as a direct recurrence:
the head of `jsSort c (x :: xs)` is `x` when `x` weakly precedes the head of
`jsSort c xs`, else that head. -/
def jsHeadAux (c : α → α → Int) : List α → Option α
  | [] => none
  | x :: xs =>
    match jsHeadAux c xs with
    | none => some x
    | some y => if c x y ≤ 0 then some x else some y

/-! ## Errors, replies, canonical requests (context.ts shapes as used here) -/

/-- A thrown sdkgen error value: its `type` and `message` properties and its
`toString()` rendering (`toStr`). -/
structure SdkError where
  type : String
  message : String
  toStr : String
deriving DecidableEq

/-- The wire shape of a transmitted error, as built by `makeResponseError`. -/
structure RespError where
  type : String
  message : String
deriving DecidableEq

/-- `makeResponseError` (lines 555–560): `message: err.message ||
err.toString()`, `type: err.type || "Fatal"` (JS `||` treats the empty string
as falsy). -/
def makeResponseError (err : SdkError) : RespError :=
  { message := if err.message = "" then err.toStr else err.message
    type := if err.type = "" then "Fatal" else err.type }

/-- The second application of `makeResponseError` inside the status-code
computation (lines 595–599 etc.): it receives a plain `{message, type}`
object, whose `toString()` is the JS default `"[object Object]"`. -/
def respErrorNorm (e : RespError) : RespError :=
  { message := if e.message = "" then "[object Object]" else e.message
    type := if e.type = "" then "Fatal" else e.type }

/-- `fatalError` (lines 229–235): construct (by throwing and catching) an
error of type `Fatal` with the given message. -/
def fatalError (message : String) : SdkError :=
  { type := "Fatal", message := message, toStr := "Fatal: " ++ message }

/-- A `ContextReply`: at most one of `result` / `error` is populated. -/
structure ContextReply where
  result : Option Json := none
  error : Option SdkError := none

/-- The canonical request (`ContextRequest`), restricted to the fields the
dispatch and response-encoding code reads: call name, request id, detected
protocol version, device id, version-2 session id, and raw args. -/
structure ContextRequest where
  name : String
  id : String
  version : Int
  deviceId : String
  sessionId : Option String := none
  args : Json := Json.jnull

/-- The version-specific response envelope written by `writeReply`
(lines 583–654).  Fields whose values are real-time data (`duration`,
`host`) are omitted: no claim mentions them. -/
inductive Envelope where
  | contextless (error : RespError)
  | v1 (id : String) (deviceId : String) (ok : Bool)
       (result : Option Json) (error : Option RespError)
  | v2 (requestId : String) (deviceId : String) (sessionId : Option String)
       (ok : Bool) (result : Option Json) (error : Option RespError)
  | v3 (result : Option Json) (error : Option RespError) (requestIdHeader : String)
  | unknownVersion (error : RespError)

/-- The error carried by an envelope, if any. -/
def envelopeError : Envelope → Option RespError
  | .contextless e => some e
  | .v1 _ _ _ _ e => e
  | .v2 _ _ _ _ _ e => e
  | .v3 _ e _ => e
  | .unknownVersion e => some e

/-- What one call to `writeReply` produces: the HTTP status code, the
envelope, and the outcome token of the per-call log line (line 577–581:
the transmitted error's `type`, or `"OK"`); `none` when the contextless
branch returns before logging. -/
structure WrittenReply where
  status : Nat
  envelope : Envelope
  logged : Option String

/-- `writeReply` (lines 562–655).  Without a context: status 500 and the bare
`{error}` fallback, no log line.  With a context: log the outcome, then
branch on the request's protocol version; in every version branch the status
is 200 without an error, else 500 when the (re-normalized) transmitted error
type is `Fatal` and 400 otherwise. -/
def writeReply (ctx : Option ContextRequest) (reply : ContextReply) : WrittenReply :=
  match ctx with
  | none =>
    { status := 500
      envelope := .contextless (makeResponseError
        ((reply.error).getD (fatalError "Response without context")))
      logged := none }
  | some ctx =>
    let logged := some (match reply.error with
      | some e => (makeResponseError e).type
      | none => "OK")
    match ctx.version with
    | 1 =>
      let error := reply.error.map makeResponseError
      { status :=
          match error with
          | some e => if (respErrorNorm e).type = "Fatal" then 500 else 400
          | none => 200
        envelope := .v1 ctx.id ctx.deviceId reply.error.isNone
          (match reply.error with | some _ => none | none => reply.result) error
        logged := logged }
    | 2 =>
      let error := reply.error.map makeResponseError
      { status :=
          match error with
          | some e => if (respErrorNorm e).type = "Fatal" then 500 else 400
          | none => 200
        envelope := .v2 ctx.id ctx.deviceId ctx.sessionId reply.error.isNone
          (match reply.error with | some _ => none | none => reply.result) error
        logged := logged }
    | 3 =>
      let error := reply.error.map makeResponseError
      { status :=
          match error with
          | some e => if (respErrorNorm e).type = "Fatal" then 500 else 400
          | none => 200
        envelope := .v3
          (match reply.error with | some _ => none | none => reply.result) error
          ctx.id
        logged := logged }
    | _ =>
      { status := 500
        envelope := .unknownVersion (makeResponseError
          ((reply.error).getD (fatalError "Unknown request version")))
        logged := logged }

/-! ## Schema operations, declared-throws enforcement (lines 369–384) -/

/-- One entry of an operation's annotations list: a `@throws` marker naming a
permitted error type, or some other kind of marker. -/
inductive OpAnn where
  | throwsAnn (error : String)
  | otherAnn (tag : String)

/-- The error name of a throws marker, `none` otherwise (the
`instanceof ThrowsAnn`-style filter plus the `.error` projection,
lines 374–376). -/
def throwsName : OpAnn → Option String
  | .throwsAnn e => some e
  | .otherAnn _ => none

/-- One operation of `apiConfig.ast.operations`. -/
structure Operation where
  name : String
  anns : List OpAnn

/-- `allowedErrors` (lines 374–376): the operation's throws markers' error
names. -/
def allowedErrorsOf (op : Operation) : List String :=
  op.anns.filterMap throwsName

/-- The declared-throws set of a call, as read from the schema: the allowed
error names of the operation carrying the call's name, or empty when no such
operation exists. -/
def declaredThrows (ops : List Operation) (name : String) : List String :=
  match ops.find? (fun op => op.name == name) with
  | some op => allowedErrorsOf op
  | none => []

/-- The declared-throws enforcement block of `handleRequestWithBody`
(lines 369–384): with an error present, look the call up in
`ast.operations`; when found and its throws list is non-empty and does not
contain the error's `type`, rewrite `type` to `"Fatal"` in place. -/
def enforceThrows (ops : List Operation) (name : String) (reply : ContextReply) :
    ContextReply :=
  match reply.error with
  | none => reply
  | some err =>
    match ops.find? (fun op => op.name == name) with
    | none => reply
    | some functionAst =>
      let allowedErrors := allowedErrorsOf functionAst
      if allowedErrors.length > 0 then
        if allowedErrors.contains err.type then reply
        else { reply with error := some { err with type := "Fatal" } }
      else reply

/-! ## Hooks, api config, and the dispatch pipeline (lines 323–387) -/

/-- The two call hooks (`apiConfig.hook`); a thrown failure is the `Except`
error case, a resolved `null`/`undefined` is `none`. -/
structure HookModel where
  onRequestStart : ContextRequest → Except SdkError (Option ContextReply)
  onRequestEnd : ContextRequest → ContextReply → Except SdkError (Option ContextReply)

/-- The parts of `BaseApiConfig` the dispatch pipeline reads: the schema's
function table (names only — only existence is tested), the implementation
table, the argument decoder and result encoder specialised to a call name,
the ast operations, and the hooks. -/
structure ApiConfig where
  functionTable : List String
  fn : String → Option (ContextRequest → Json → Except SdkError Json)
  decodeArgs : String → Json → Except SdkError Json
  encodeRet : String → Json → Except SdkError Json
  operations : List Operation
  hook : HookModel

/-- Observable invocation events of the dispatch pipeline, in order. -/
inductive Ev where
  | onRequestStartEv
  | decodeEv
  | implEv
  | encodeEv
  | onRequestEndEv
deriving DecidableEq

/-- The `try` block of `handleRequestWithBody` (lines 342–365): run the
pre-call hook; unless it short-circuits, decode the arguments, invoke the
implementation, encode the result; any failure is caught and becomes
`{error: e}`.  Also returns the list of invocation events. -/
def tryBlock (cfg : ApiConfig) (ctx : ContextRequest)
    (impl : ContextRequest → Json → Except SdkError Json) :
    List Ev × ContextReply :=
  match cfg.hook.onRequestStart ctx with
  | .error e => ([.onRequestStartEv], { error := some e })
  | .ok (some r) => ([.onRequestStartEv], r)
  | .ok none =>
    match cfg.decodeArgs ctx.name ctx.args with
    | .error e => ([.onRequestStartEv, .decodeEv], { error := some e })
    | .ok args =>
      match impl ctx args with
      | .error e => ([.onRequestStartEv, .decodeEv, .implEv], { error := some e })
      | .ok ret =>
        match cfg.encodeRet ctx.name ret with
        | .error e =>
          ([.onRequestStartEv, .decodeEv, .implEv, .encodeEv], { error := some e })
        | .ok enc =>
          ([.onRequestStartEv, .decodeEv, .implEv, .encodeEv],
           { result := some enc })

/-- The dispatch portion of `handleRequestWithBody` (lines 323–387) together
with the per-connection catch of `handleRequest` (lines 222–226).  When the
call name is missing from the schema's function table or from the
implementation table, a fatal "Function does not exist" reply is written with
the context, with no hook invoked.  Otherwise the try block runs, then
`onRequestEnd` outside it: a failure there escapes the dispatcher and reaches
the per-connection catch, which writes the contextless fallback; on success
the (possibly replaced) reply undergoes declared-throws enforcement and is
written with the context. -/
def processPost (cfg : ApiConfig) (ctx : ContextRequest) : List Ev × WrittenReply :=
  match cfg.functionTable.contains ctx.name, cfg.fn ctx.name with
  | true, some impl =>
    let t := tryBlock cfg ctx impl
    match cfg.hook.onRequestEnd ctx t.2 with
    | .error e => (t.1 ++ [.onRequestEndEv], writeReply none { error := some e })
    | .ok r =>
      (t.1 ++ [.onRequestEndEv],
       writeReply (some ctx) (enforceThrows cfg.operations ctx.name (r.getD t.2)))
  | _, _ =>
    ([], writeReply (some ctx)
      { error := some (fatalError ("Function does not exist: " ++ ctx.name)) })

/-- The disjunction "some step of the `try` block raised `e`": the pre-call
hook threw, or it proceeded and the argument decode threw, or decode
succeeded and the implementation threw, or that succeeded and the result
encode threw. -/
def stepFailure (cfg : ApiConfig) (ctx : ContextRequest)
    (impl : ContextRequest → Json → Except SdkError Json) (e : SdkError) : Prop :=
  cfg.hook.onRequestStart ctx = .error e ∨
  (cfg.hook.onRequestStart ctx = .ok none ∧
    cfg.decodeArgs ctx.name ctx.args = .error e) ∨
  (∃ args, cfg.hook.onRequestStart ctx = .ok none ∧
    cfg.decodeArgs ctx.name ctx.args = .ok args ∧ impl ctx args = .error e) ∨
  (∃ args ret, cfg.hook.onRequestStart ctx = .ok none ∧
    cfg.decodeArgs ctx.name ctx.args = .ok args ∧ impl ctx args = .ok ret ∧
    cfg.encodeRet ctx.name ret = .error e)

/-! ## CORS and general header application, OPTIONS short-circuit
(lines 200–217) -/

/-- The dynamic-CORS origin echo (lines 200–203): when enabled and the
request carries a non-empty `Origin` header, set
`Access-Control-Allow-Origin` to it plus `Vary: Origin`. -/
def corsOriginHeaders (dynamicCorsOrigin : Bool) (origin : Option String) :
    List (String × String) :=
  match origin with
  | some o =>
    if dynamicCorsOrigin ∧ o ≠ "" then
      [("Access-Control-Allow-Origin", o), ("Vary", "Origin")]
    else []
  | none => []

/-- The header-policy loop (lines 205–211): apply every stored policy header,
except that an `OPTIONS` request only receives those whose name starts with
`access-control-`. -/
def headerLoopHeaders (headers : List (String × String)) (method : String) :
    List (String × String) :=
  headers.filter (fun p => !(method == "OPTIONS" && !(strStartsWith p.1 "access-control-")))

/-- The early response produced before any body is read. -/
structure HttpEarlyReply where
  status : Nat
  body : String
  headers : List (String × String)

/-- The `OPTIONS` short-circuit (lines 200–217): after the CORS origin echo
and the filtered header loop, answer 200 with an empty body; the
`Content-Type` assignment (line 261) is never reached. -/
def handleOptionsRequest (dynamicCorsOrigin : Bool) (origin : Option String)
    (headers : List (String × String)) : HttpEarlyReply :=
  { status := 200
    body := ""
    headers := corsOriginHeaders dynamicCorsOrigin origin ++
      headerLoopHeaders headers "OPTIONS" }

/-! ## Concrete fixtures for witnesses and counterexamples -/

/-- A payload carrying both a `version` and a `requestId` field. -/
def exBothPayload : List (String × Json) :=
  [("version", Json.jnum 2), ("requestId", Json.jstr "r")]

/-- An error of a type (`Other`) not declared by any throws marker. -/
def exOtherErr : SdkError :=
  { type := "Other", message := "boom", toStr := "Other: boom" }

/-- The operations table declaring `@throws NotFound` on call `foo`. -/
def exThrowsOps : List Operation :=
  [{ name := "foo", anns := [.throwsAnn "NotFound"] }]

/-- An api config whose `foo` implementation throws the undeclared error
`Other` while the schema declares only `NotFound`. -/
def exThrowsCfg : ApiConfig :=
  { functionTable := ["foo"]
    fn := fun n => if n = "foo" then some (fun _ _ => Except.error exOtherErr) else none
    decodeArgs := fun _ args => Except.ok args
    encodeRet := fun _ r => Except.ok r
    operations := exThrowsOps
    hook :=
      { onRequestStart := fun _ => Except.ok none
        onRequestEnd := fun _ _ => Except.ok none } }

/-- A version-3 canonical request for call `foo`. -/
def exThrowsCtx : ContextRequest :=
  { name := "foo", id := "r1", version := 3, deviceId := "d1" }

/-- A version-1 canonical request. -/
def exV1Ctx : ContextRequest :=
  { name := "f", id := "r1", version := 1, deviceId := "d1" }

/-- A reply carrying a non-fatal `NotFound` error. -/
def exNotFoundReply : ContextReply :=
  { error := some { type := "NotFound", message := "nf", toStr := "NotFound: nf" } }

/-- An api config with an empty schema and implementation table. -/
def exMissingCfg : ApiConfig :=
  { functionTable := []
    fn := fun _ => none
    decodeArgs := fun _ args => Except.ok args
    encodeRet := fun _ r => Except.ok r
    operations := []
    hook :=
      { onRequestStart := fun _ => Except.ok none
        onRequestEnd := fun _ _ => Except.ok none } }

/-- A request naming a call that exists nowhere. -/
def exMissingCtx : ContextRequest :=
  { name := "nope", id := "r9", version := 3, deviceId := "d9" }

/-- A decode failure. -/
def exDecodeErr : SdkError :=
  { type := "Fatal", message := "decode failed", toStr := "Fatal: decode failed" }

/-- A trivial implementation. -/
def exStepImpl : ContextRequest → Json → Except SdkError Json :=
  fun _ _ => Except.ok Json.jnull

/-- An api config whose argument decoder always throws. -/
def exStepCfg : ApiConfig :=
  { functionTable := ["f"]
    fn := fun n => if n = "f" then some exStepImpl else none
    decodeArgs := fun _ _ => Except.error exDecodeErr
    encodeRet := fun _ r => Except.ok r
    operations := []
    hook :=
      { onRequestStart := fun _ => Except.ok none
        onRequestEnd := fun _ _ => Except.ok none } }

/-- A version-2 canonical request for call `f`. -/
def exStepCtx : ContextRequest :=
  { name := "f", id := "r2", version := 2, deviceId := "d2" }

/-- A failure thrown by the post-call hook. -/
def exEndErr : SdkError :=
  { type := "HookBoom", message := "end hook failed", toStr := "HookBoom: end hook failed" }

/-- An api config whose `onRequestEnd` hook always throws. -/
def exEndCfg : ApiConfig :=
  { functionTable := ["f"]
    fn := fun n => if n = "f" then some exStepImpl else none
    decodeArgs := fun _ args => Except.ok args
    encodeRet := fun _ r => Except.ok r
    operations := []
    hook :=
      { onRequestStart := fun _ => Except.ok none
        onRequestEnd := fun _ _ => Except.error exEndErr } }

/-- The first-match function of the pattern `/^\/a/` as it behaves on the
path `/ab`: a match at index 0 of length 2. -/
def exPatA : String → Option (Nat × Nat) :=
  fun s => if s = "/ab" then some (0, 2) else none

/-- The first-match function of the pattern `/^\/ab/` as it behaves on the
path `/ab`: a match at index 0 of length 3. -/
def exPatAB : String → Option (Nat × Nat) :=
  fun s => if s = "/ab" then some (0, 3) else none

/-- Two GET pattern routes, the shorter-matching one registered first. -/
def exHandlers : List Handler :=
  [{ method := "GET", matcher := .pat exPatA, tag := 0 },
   { method := "GET", matcher := .pat exPatAB, tag := 1 }]

/-! ## Helper lemmas -/

/-- The head of the stable sort satisfies the `jsHeadAux` recurrence. -/
theorem jsSort_head (c : α → α → Int) (l : List α) :
    (jsSort c l).head? = jsHeadAux c l := by
  induction l with
  | nil => rfl
  | cons x xs ih =>
    show (jsInsert c x (jsSort c xs)).head? = _
    cases hs : jsSort c xs with
    | nil =>
      have hx : jsHeadAux c xs = none := by rw [← ih, hs]; rfl
      simp [jsInsert, jsHeadAux, hx]
    | cons y ys =>
      have hx : jsHeadAux c xs = some y := by rw [← ih, hs]; rfl
      by_cases hc : c x y ≤ 0 <;> simp [jsInsert, jsHeadAux, hx, hc]

/-- `jsHeadAux` on a non-empty list yields some element. -/
theorem jsHeadAux_cons_some (c : α → α → Int) (x : α) (xs : List α) :
    ∃ z, jsHeadAux c (x :: xs) = some z := by
  simp only [jsHeadAux]
  cases haux : jsHeadAux c xs with
  | none => exact ⟨x, rfl⟩
  | some y =>
    by_cases hc : c x y ≤ 0
    · exact ⟨x, if_pos hc⟩
    · exact ⟨y, if_neg hc⟩

/-- `jsHeadAux` yields `none` exactly on the empty list. -/
theorem jsHeadAux_eq_none (c : α → α → Int) (l : List α) :
    jsHeadAux c l = none ↔ l = [] := by
  cases l with
  | nil => simp [jsHeadAux]
  | cons x xs =>
    constructor
    · intro h0
      obtain ⟨z, hz⟩ := jsHeadAux_cons_some c x xs
      rw [h0] at hz
      cases hz
    · intro h0
      exact (List.cons_ne_nil x xs h0).elim

/-- The head of the stable sort is an element of the list. -/
theorem jsHeadAux_mem (c : α → α → Int) :
    ∀ (l : List α) (h : α), jsHeadAux c l = some h → h ∈ l := by
  intro l
  induction l with
  | nil => intro h hh; simp [jsHeadAux] at hh
  | cons x xs ih =>
    intro h hh
    cases haux : jsHeadAux c xs with
    | none =>
      simp only [jsHeadAux, haux] at hh
      rw [show h = x from (Option.some.inj hh).symm]
      exact List.mem_cons_self x xs
    | some y =>
      simp only [jsHeadAux, haux] at hh
      by_cases hc : c x y ≤ 0
      · rw [if_pos hc] at hh
        rw [show h = x from (Option.some.inj hh).symm]
        exact List.mem_cons_self x xs
      · rw [if_neg hc] at hh
        rw [show h = y from (Option.some.inj hh).symm]
        exact List.mem_cons_of_mem x (ih y haux)

/-- With a reflexive and quasi-transitive comparator, no element strictly
precedes the head of the stable sort. -/
theorem jsHeadAux_min (c : α → α → Int) (hrefl : ∀ a, c a a = 0)
    (htrans : ∀ a b d, c a b < 0 → c b d ≤ 0 → c a d < 0) :
    ∀ (l : List α) (h : α), jsHeadAux c l = some h → ∀ x ∈ l, ¬ c x h < 0 := by
  intro l
  induction l with
  | nil => intro h hh; simp [jsHeadAux] at hh
  | cons z xs ih =>
    intro h hh x hx
    cases haux : jsHeadAux c xs with
    | none =>
      have hxs : xs = [] := (jsHeadAux_eq_none c xs).mp haux
      subst hxs
      simp only [jsHeadAux] at hh
      rw [show h = z from (Option.some.inj hh).symm]
      rcases List.mem_cons.mp hx with rfl | hx'
      · rw [hrefl]; omega
      · simp at hx'
    | some y =>
      simp only [jsHeadAux, haux] at hh
      by_cases hc : c z y ≤ 0
      · rw [if_pos hc] at hh
        rw [show h = z from (Option.some.inj hh).symm]
        rcases List.mem_cons.mp hx with rfl | hx'
        · rw [hrefl]; omega
        · intro hlt
          exact ih y haux x hx' (htrans x z y hlt hc)
      · rw [if_neg hc] at hh
        rw [show h = y from (Option.some.inj hh).symm]
        rcases List.mem_cons.mp hx with rfl | hx'
        · omega
        · exact ih y haux x hx'

/-- The route comparator is reflexive (compares to zero on itself). -/
theorem handlerCompare_refl (path : String) (a : Handler) :
    handlerCompare path a a = 0 := by
  rcases a with ⟨am, amm, atg⟩
  cases amm <;> simp [handlerCompare]

/-- The route comparator is quasi-transitive in the form the head lemma
needs. -/
theorem handlerCompare_trans (path : String) (a b d : Handler) :
    handlerCompare path a b < 0 → handlerCompare path b d ≤ 0 →
    handlerCompare path a d < 0 := by
  rcases a with ⟨am, amm, atg⟩
  rcases b with ⟨bm, bmm, btg⟩
  rcases d with ⟨dm, dmm, dtg⟩
  cases amm <;> cases bmm <;> cases dmm <;> simp only [handlerCompare] <;> omega

/-- An exact-string entry never sorts after any other entry. -/
theorem handlerCompare_str_le (path : String) (a b : Handler)
    (ha : isStrHandler a = true) : handlerCompare path a b ≤ 0 := by
  rcases a with ⟨am, amm, atg⟩
  rcases b with ⟨bm, bmm, btg⟩
  cases amm <;> cases bmm <;> simp only [handlerCompare, isStrHandler] <;>
    simp_all [isStrHandler]

/-- A pattern entry sorts strictly after an exact-string entry. -/
theorem handlerCompare_pat_str (path : String) (a b : Handler)
    (ha : isStrHandler a = false) (hb : isStrHandler b = true) :
    0 < handlerCompare path a b := by
  rcases a with ⟨am, amm, atg⟩
  rcases b with ⟨bm, bmm, btg⟩
  cases amm <;> cases bmm <;> simp_all [handlerCompare, isStrHandler]

/-- An exact-string entry sorts strictly before a pattern entry. -/
theorem handlerCompare_str_pat (path : String) (a b : Handler)
    (ha : isStrHandler a = true) (hb : isStrHandler b = false) :
    handlerCompare path a b = -1 := by
  rcases a with ⟨am, amm, atg⟩
  rcases b with ⟨bm, bmm, btg⟩
  cases amm <;> cases bmm <;> simp_all [handlerCompare, isStrHandler]

/-- Between two pattern entries the comparator is the difference of matched
lengths. -/
theorem handlerCompare_pat_pat (path : String) (a b : Handler)
    (ha : isStrHandler a = false) (hb : isStrHandler b = false) :
    handlerCompare path a b =
      (matchLength path b.matcher : Int) - (matchLength path a.matcher : Int) := by
  rcases a with ⟨am, amm, atg⟩
  rcases b with ⟨bm, bmm, btg⟩
  cases amm <;> cases bmm <;> simp_all [handlerCompare, isStrHandler]

/-- When some exact-string entry is present, the head of the stable sort is
an exact-string entry. -/
theorem jsHeadAux_str_priority (path : String) :
    ∀ (l : List Handler) (h : Handler),
      jsHeadAux (handlerCompare path) l = some h →
      (∃ g ∈ l, isStrHandler g = true) → isStrHandler h = true := by
  intro l
  induction l with
  | nil => intro h hh; simp [jsHeadAux] at hh
  | cons z xs ih =>
    intro h hh hex
    cases haux : jsHeadAux (handlerCompare path) xs with
    | none =>
      have hxs : xs = [] := (jsHeadAux_eq_none _ xs).mp haux
      subst hxs
      simp only [jsHeadAux] at hh
      rw [show h = z from (Option.some.inj hh).symm]
      obtain ⟨g, hg, hgs⟩ := hex
      rcases List.mem_cons.mp hg with rfl | hg'
      · exact hgs
      · simp at hg'
    | some y =>
      simp only [jsHeadAux, haux] at hh
      by_cases hz : isStrHandler z = true
      · rw [if_pos (handlerCompare_str_le path z y hz)] at hh
        rw [show h = z from (Option.some.inj hh).symm]
        exact hz
      · obtain ⟨g, hg, hgs⟩ := hex
        rcases List.mem_cons.mp hg with rfl | hg'
        · exact absurd hgs hz
        · have hy : isStrHandler y = true := ih y haux ⟨g, hg', hgs⟩
          have hzf : isStrHandler z = false := by
            revert hz; cases isStrHandler z <;> simp
          have hgt : 0 < handlerCompare path z y :=
            handlerCompare_pat_str path z y hzf hy
          rw [if_neg (by omega)] at hh
          rw [show h = y from (Option.some.inj hh).symm]
          exact hy

/-- When the head of the stable sort is an exact-string entry, it is the
first exact-string entry of the list. -/
theorem jsHeadAux_first_str (path : String) :
    ∀ (l : List Handler) (h : Handler),
      jsHeadAux (handlerCompare path) l = some h → isStrHandler h = true →
      l.find? isStrHandler = some h := by
  intro l
  induction l with
  | nil => intro h hh; simp [jsHeadAux] at hh
  | cons z xs ih =>
    intro h hh hstr
    cases haux : jsHeadAux (handlerCompare path) xs with
    | none =>
      have hxs : xs = [] := (jsHeadAux_eq_none _ xs).mp haux
      subst hxs
      simp only [jsHeadAux] at hh
      rw [show h = z from (Option.some.inj hh).symm] at hstr ⊢
      simp [List.find?, hstr]
    | some y =>
      simp only [jsHeadAux, haux] at hh
      by_cases hz : isStrHandler z = true
      · rw [if_pos (handlerCompare_str_le path z y hz)] at hh
        rw [show h = z from (Option.some.inj hh).symm]
        simp [List.find?, hz]
      · have hzf : isStrHandler z = false := by
          revert hz; cases isStrHandler z <;> simp
        by_cases hc : handlerCompare path z y ≤ 0
        · rw [if_pos hc] at hh
          rw [show h = z from (Option.some.inj hh).symm] at hstr
          exact absurd hstr hz
        · rw [if_neg hc] at hh
          rw [show h = y from (Option.some.inj hh).symm] at hstr ⊢
          simp only [List.find?, hzf]
          exact ih y haux hstr

/-- Reading back the key just written by `mapSet`. -/
theorem mapGet_mapSet_self (m : List (String × String)) (k v : String) :
    mapGet (mapSet m k v) k = some v := by
  induction m with
  | nil => simp [mapSet, mapGet, List.find?]
  | cons p rest ih =>
    by_cases hp : p.1 == k
    · simp [mapSet, hp, mapGet, List.find?]
    · simp only [mapSet, hp, Bool.false_eq_true, if_false]
      simp only [mapGet, List.find?, hp] at ih ⊢
      exact ih

/-- Adding a header under a name with no stored value stores the value. -/
theorem addHeader_fresh (m : List (String × String)) (h v : String)
    (hm : mapGet m (cleanHeader h) = none) :
    mapGet (addHeader m h v) (cleanHeader h) = some v := by
  unfold addHeader
  rw [hm]
  exact mapGet_mapSet_self m (cleanHeader h) v

/-- Adding a header under a name with a non-empty stored value comma-joins. -/
theorem addHeader_join (m : List (String × String)) (h v s : String)
    (hs : mapGet m (cleanHeader h) = some s) (hne : s ≠ "") :
    mapGet (addHeader m h v) (cleanHeader h) = some (s ++ ", " ++ v) := by
  unfold addHeader
  rw [hs]
  have hb : (s == "") = false := beq_eq_false_iff_ne.mpr hne
  show mapGet (if (s == "") = true then mapSet m (cleanHeader h) v
    else mapSet m (cleanHeader h) (s ++ ", " ++ v)) (cleanHeader h) =
    some (s ++ ", " ++ v)
  rw [hb]
  simp only [Bool.false_eq_true, if_false]
  exact mapGet_mapSet_self m (cleanHeader h) (s ++ ", " ++ v)

/-- A comma-join is never the empty string. -/
theorem append_comma_ne_empty (s v : String) : s ++ ", " ++ v ≠ "" := by
  intro hcontra
  have h2 : (s ++ ", " ++ v).length = ("" : String).length := by rw [hcontra]
  rw [String.length_append, String.length_append] at h2
  have hc : (", " : String).length = 2 := rfl
  have he : ("" : String).length = 0 := rfl
  omega

/-- Folding further additions over a state holding a non-empty value for the
name accumulates them all, comma-joined in order. -/
theorem addHeader_foldl (h : String) (vs : List String) :
    ∀ (m : List (String × String)) (s : String), s ≠ "" →
      mapGet m (cleanHeader h) = some s →
      mapGet (vs.foldl (fun acc v => addHeader acc h v) m) (cleanHeader h) =
        some (vs.foldl (fun acc v => acc ++ ", " ++ v) s) := by
  induction vs with
  | nil => intro m s _ hm; simpa using hm
  | cons v rest ih =>
    intro m s hne hm
    have h1 := addHeader_join m h v s hm hne
    have h2 := append_comma_ne_empty s v
    simpa using ih (addHeader m h v) (s ++ ", " ++ v) h2 h1

/-- Re-normalizing an already-normalized response error keeps its type. -/
theorem respErrorNorm_type (e : SdkError) :
    (respErrorNorm (makeResponseError e)).type = (makeResponseError e).type := by
  unfold respErrorNorm makeResponseError
  by_cases ht : e.type = ""
  · simp [ht]
  · simp [ht]

/-- The `type` of `makeResponseError` applied to a `fatalError` is `Fatal`. -/
theorem makeResponseError_fatal_type (msg : String) :
    (makeResponseError (fatalError msg)).type = "Fatal" := by
  simp [makeResponseError, fatalError, ite_self]

/-- `writeReply` with a context and an error whose transmitted type is
`Fatal` answers status 500 under every protocol version. -/
theorem writeReply_status_fatal (ctx : ContextRequest) (reply : ContextReply)
    (e : SdkError) (he : reply.error = some e)
    (ht : (makeResponseError e).type = "Fatal") :
    (writeReply (some ctx) reply).status = 500 := by
  have hn := respErrorNorm_type e
  unfold writeReply
  split <;> simp [he, hn, ht]
  split <;> rfl

/-! ## Claim theorems -/

/-- Claim C1: protocol-version classification of a parsed POST body follows
the fixed precedence: a `version` field is used verbatim (so a payload with
both `version` and `requestId` is classified solely by `version`); otherwise
a `requestId` field yields version 2; otherwise a `device` field yields
version 1; otherwise version 3. -/
theorem c1_version_classification (parsed : List (String × Json)) :
    (jsIn "version" parsed = true →
      identifyRequestVersion parsed = jsGet "version" parsed) ∧
    (jsIn "version" parsed = false → jsIn "requestId" parsed = true →
      identifyRequestVersion parsed = Json.jnum 2) ∧
    (jsIn "version" parsed = false → jsIn "requestId" parsed = false →
      jsIn "device" parsed = true → identifyRequestVersion parsed = Json.jnum 1) ∧
    (jsIn "version" parsed = false → jsIn "requestId" parsed = false →
      jsIn "device" parsed = false → identifyRequestVersion parsed = Json.jnum 3) := by
  refine ⟨?_, ?_, ?_, ?_⟩
  · intro h1
    simp [identifyRequestVersion, h1]
  · intro h1 h2
    simp [identifyRequestVersion, h1, h2]
  · intro h1 h2 h3
    simp [identifyRequestVersion, h1, h2, h3]
  · intro h1 h2 h3
    simp [identifyRequestVersion, h1, h2, h3]

/-- Witness for C1: a payload with both `version: 2` and `requestId` is
classified by the `version` field. -/
theorem c1_version_classification_witness :
    identifyRequestVersion exBothPayload = Json.jnum 2 :=
  ((c1_version_classification exBothPayload).1 rfl).trans rfl

/-- Claim C2: declared-throws enforcement.  A reply without an error passes
through unchanged; with an error and an empty declared-throws set nothing is
rewritten; with an error whose type is outside a non-empty declared-throws
set the type is rewritten to `Fatal` and the message (and `toString`
rendering) is preserved. -/
theorem c2_throws_enforcement (ops : List Operation) (name : String)
    (reply : ContextReply) :
    (reply.error = none → enforceThrows ops name reply = reply) ∧
    (∀ err, reply.error = some err → declaredThrows ops name = [] →
      enforceThrows ops name reply = reply) ∧
    (∀ err, reply.error = some err → declaredThrows ops name ≠ [] →
      (declaredThrows ops name).contains err.type = false →
      enforceThrows ops name reply =
        { result := reply.result
          error := some { type := "Fatal", message := err.message, toStr := err.toStr } }) := by
  refine ⟨?_, ?_, ?_⟩
  · intro h0
    unfold enforceThrows
    rw [h0]
  · intro err herr hde
    unfold enforceThrows
    rw [herr]
    unfold declaredThrows at hde
    cases hfind : ops.find? (fun op => op.name == name) with
    | none => rfl
    | some op =>
      rw [hfind] at hde
      have hde2 : allowedErrorsOf op = [] := hde
      simp [hde2]
  · intro err herr hne hmem
    unfold declaredThrows at hne hmem
    cases hfind : ops.find? (fun op => op.name == name) with
    | none =>
      rw [hfind] at hne
      exact absurd rfl hne
    | some op =>
      rw [hfind] at hne hmem
      have hne2 : allowedErrorsOf op ≠ [] := hne
      have hmem2 : (allowedErrorsOf op).contains err.type = false := hmem
      have hlen : 0 < (allowedErrorsOf op).length := List.length_pos.mpr hne2
      have hnotin : err.type ∉ allowedErrorsOf op := by
        intro hin
        have helem : (allowedErrorsOf op).contains err.type = true :=
          List.elem_iff.mpr hin
        rw [helem] at hmem2
        cases hmem2
      unfold enforceThrows
      rw [herr, hfind]
      simp [hlen, hmem2, hnotin]

/-- Witness for C2: the undeclared error type `Other` on call `foo`
(declaring only `NotFound`) is rewritten to `Fatal` with the message kept. -/
theorem c2_throws_enforcement_witness :
    enforceThrows exThrowsOps "foo" { error := some exOtherErr } =
      { result := none
        error := some { type := "Fatal", message := exOtherErr.message, toStr := exOtherErr.toStr } } :=
  (c2_throws_enforcement exThrowsOps "foo" { error := some exOtherErr }).2.2
    exOtherErr rfl (by decide) (by decide)

/-- Counterexample to claim C8 as stated for *every* value: adding the empty
value twice under the same name stores the empty string, not the empty value
twice comma-joined — JS `if (existing)` treats the stored empty string as
falsy and overwrites instead of joining. -/
theorem c8_empty_value_counterexample :
    mapGet (addHeader (addHeader [] "X-Test" "") "X-Test" "") (cleanHeader "X-Test") =
      some "" ∧
    some "" ≠ some ("" ++ ", " ++ "") := by
  exact ⟨rfl, by decide⟩

/-- Claim C8 (amended): for every header name and every *non-empty* value,
adding the same name/value pair twice yields that value exactly twice,
comma-joined; more generally, once a non-empty first value has been stored
for a name, every further addition accumulates by comma-joining in
registration order. -/
theorem c8_header_accumulation (m : List (String × String)) (h v : String)
    (hv : v ≠ "") (hm : mapGet m (cleanHeader h) = none) :
    mapGet (addHeader (addHeader m h v) h v) (cleanHeader h) =
      some (v ++ ", " ++ v) ∧
    ∀ (ws : List String),
      mapGet ((v :: ws).foldl (fun acc w => addHeader acc h w) m) (cleanHeader h) =
        some (ws.foldl (fun acc w => acc ++ ", " ++ w) v) := by
  have h1 : mapGet (addHeader m h v) (cleanHeader h) = some v :=
    addHeader_fresh m h v hm
  constructor
  · exact addHeader_join (addHeader m h v) h v v h1 hv
  · intro ws
    have h2 := addHeader_foldl h ws (addHeader m h v) v hv h1
    simpa using h2

/-- Witness for C8 (amended): two additions of `a` under `X-Test` store
`a, a`. -/
theorem c8_header_accumulation_witness :
    mapGet (addHeader (addHeader [] "X-Test" "a") "X-Test" "a")
      (cleanHeader "X-Test") = some ("a" ++ ", " ++ "a") :=
  (c8_header_accumulation [] "X-Test" "a" (by decide) rfl).1

/-- Claim C9: an `OPTIONS` request to any path is answered 200 with an empty
body, and every header applied is a CORS header — either an
`access-control-`-prefixed policy header or the dynamic origin echo pair
(`Access-Control-Allow-Origin` and its `Vary: Origin` companion); in
particular no `Content-Type` header is set. -/
theorem c9_options_cors_only (dynamicCorsOrigin : Bool) (origin : Option String)
    (headers : List (String × String)) :
    (handleOptionsRequest dynamicCorsOrigin origin headers).status = 200 ∧
    (handleOptionsRequest dynamicCorsOrigin origin headers).body = "" ∧
    ((handleOptionsRequest dynamicCorsOrigin origin headers).headers.all
      (fun p => strStartsWith p.1 "access-control-" ||
        p.1 == "Access-Control-Allow-Origin" || p.1 == "Vary")) = true ∧
    ((handleOptionsRequest dynamicCorsOrigin origin headers).headers.all
      (fun p => !(p.1 == "Content-Type") && !(p.1 == "content-type"))) = true := by
  refine ⟨rfl, rfl, ?_, ?_⟩
  · show ((corsOriginHeaders dynamicCorsOrigin origin ++
      headerLoopHeaders headers "OPTIONS").all _) = true
    rw [List.all_append]
    apply Bool.and_eq_true_iff.mpr
    constructor
    · rcases origin with _ | o
      · rfl
      · by_cases hd : dynamicCorsOrigin ∧ o ≠ ""
        · simp [corsOriginHeaders, hd]
        · simp [corsOriginHeaders, hd]
    · apply List.all_eq_true.mpr
      intro p hp
      have hmem := List.mem_filter.mp hp
      have hcond := hmem.2
      simp only [beq_self_eq_true, Bool.true_and, Bool.not_not] at hcond
      simp [hcond]
  · show ((corsOriginHeaders dynamicCorsOrigin origin ++
      headerLoopHeaders headers "OPTIONS").all _) = true
    rw [List.all_append]
    apply Bool.and_eq_true_iff.mpr
    constructor
    · rcases origin with _ | o
      · rfl
      · by_cases hd : dynamicCorsOrigin ∧ o ≠ ""
        · simp [corsOriginHeaders, hd]
        · simp [corsOriginHeaders, hd]
    · apply List.all_eq_true.mpr
      intro p hp
      have hmem := List.mem_filter.mp hp
      have hcond := hmem.2
      simp only [beq_self_eq_true, Bool.true_and, Bool.not_not] at hcond
      by_cases h1 : p.1 = "Content-Type"
      · rw [h1] at hcond
        exact absurd hcond (by decide)
      · by_cases h2 : p.1 = "content-type"
        · rw [h2] at hcond
          exact absurd hcond (by decide)
        · simp [h1, h2]

/-- Claim C4: route resolution filters by exact method equality and matcher
acceptance (exact path equality for string matchers, first match at index 0
for patterns), and the winner satisfies the priority rule: any resolved
handler is a surviving candidate; when an exact-string candidate survives the
winner is an exact-string one, namely the first-registered surviving
exact-string candidate; when the winner is a pattern, no exact-string
candidate survived and the winner's matched-substring length is maximal among
the surviving candidates. -/
theorem c4_route_resolution (handlers : List Handler) (method path : String)
    (h : Handler) (hres : findBestHandler handlers method path = some h) :
    h ∈ candidates handlers method path ∧
    (∀ g, (g ∈ candidates handlers method path ↔
      g ∈ handlers ∧ (g.method == method) = true ∧
        matcherAccepts path g.matcher = true)) ∧
    ((∃ g ∈ candidates handlers method path, isStrHandler g = true) →
      isStrHandler h = true) ∧
    (isStrHandler h = true →
      (candidates handlers method path).find? isStrHandler = some h) ∧
    (isStrHandler h = false →
      ∀ g ∈ candidates handlers method path, isStrHandler g = false ∧
        matchLength path g.matcher ≤ matchLength path h.matcher) := by
  have hhead : jsHeadAux (handlerCompare path) (candidates handlers method path) =
      some h := by
    rw [← jsSort_head]
    exact hres
  refine ⟨jsHeadAux_mem _ _ h hhead, ?_, ?_, ?_, ?_⟩
  · intro g
    constructor
    · intro hg
      have h1 := List.mem_filter.mp hg
      have h2 := List.mem_filter.mp h1.1
      exact ⟨h2.1, h2.2, h1.2⟩
    · intro ⟨hg1, hg2, hg3⟩
      exact List.mem_filter.mpr ⟨List.mem_filter.mpr ⟨hg1, hg2⟩, hg3⟩
  · exact jsHeadAux_str_priority path _ h hhead
  · exact jsHeadAux_first_str path _ h hhead
  · intro hpat g hg
    have hmin := jsHeadAux_min (handlerCompare path) (handlerCompare_refl path)
      (handlerCompare_trans path) _ h hhead g hg
    have hgf : isStrHandler g = false := by
      by_contra hgs
      have hgs2 : isStrHandler g = true := by
        revert hgs; cases isStrHandler g <;> simp
      have := handlerCompare_str_pat path g h hgs2 hpat
      omega
    refine ⟨hgf, ?_⟩
    have hpp := handlerCompare_pat_pat path g h hgf hpat
    omega

/-- Witness for C4: of the two surviving GET pattern routes on path `/ab`
(`/^\/a/` registered first, `/^\/ab/` second), the longer-matching one is
resolved; it is in particular a surviving candidate. -/
theorem c4_route_resolution_witness :
    ({ method := "GET", matcher := .pat exPatAB, tag := 1 } : Handler) ∈
      candidates exHandlers "GET" "/ab" :=
  (c4_route_resolution exHandlers "GET" "/ab"
    { method := "GET", matcher := .pat exPatAB, tag := 1 } rfl).1

/-- Reduction of `processPost` on a known call: the try block runs, then the
post-call hook decides between the contextless escape and the enforced
with-context reply. -/
theorem processPost_known (cfg : ApiConfig) (ctx : ContextRequest)
    (impl : ContextRequest → Json → Except SdkError Json)
    (htab : cfg.functionTable.contains ctx.name = true)
    (himpl : cfg.fn ctx.name = some impl) :
    processPost cfg ctx =
      (match cfg.hook.onRequestEnd ctx (tryBlock cfg ctx impl).2 with
       | .error e =>
         ((tryBlock cfg ctx impl).1 ++ [Ev.onRequestEndEv],
          writeReply none { error := some e })
       | .ok r =>
         ((tryBlock cfg ctx impl).1 ++ [Ev.onRequestEndEv],
          writeReply (some ctx)
            (enforceThrows cfg.operations ctx.name (r.getD (tryBlock cfg ctx impl).2)))) := by
  unfold processPost
  rw [htab, himpl]

/-- Reduction of `processPost` on an unknown call: the fatal reply is
written with the context and no hook event is recorded. -/
theorem processPost_unknown (cfg : ApiConfig) (ctx : ContextRequest)
    (h : cfg.functionTable.contains ctx.name = false ∨ cfg.fn ctx.name = none) :
    processPost cfg ctx =
      ([], writeReply (some ctx)
        { result := none
          error := some (fatalError ("Function does not exist: " ++ ctx.name)) }) := by
  rcases h with h | h
  · cases hfn : cfg.fn ctx.name with
    | none =>
      unfold processPost
      rw [h, hfn]
    | some impl =>
      unfold processPost
      rw [h, hfn]
  · cases hc : cfg.functionTable.contains ctx.name with
    | false =>
      unfold processPost
      rw [hc, h]
    | true =>
      unfold processPost
      rw [hc, h]

/-- Claim C5: under protocol versions 1, 2 and 3 the RPC status code follows
one shared rule: no error gives 200; an error whose transmitted
(`makeResponseError`-normalized) type is `Fatal` gives 500; any other error
type gives 400. -/
theorem c5_status_rule (ctx : ContextRequest) (reply : ContextReply)
    (hv : ctx.version = 1 ∨ ctx.version = 2 ∨ ctx.version = 3) :
    (writeReply (some ctx) reply).status =
      match reply.error with
      | none => 200
      | some e => if (makeResponseError e).type = "Fatal" then 500 else 400 := by
  rcases hv with hv | hv | hv <;>
    cases he : reply.error <;>
      simp [writeReply, hv, he, respErrorNorm_type]

/-- Witness for C5: a version-1 reply with a `NotFound` error is status
400. -/
theorem c5_status_rule_witness :
    (writeReply (some exV1Ctx) exNotFoundReply).status = 400 :=
  (c5_status_rule exV1Ctx exNotFoundReply (Or.inl rfl)).trans (by decide)

/-- Claim C6: a call name absent from the schema's function table or from
the implementation table produces a fatal "Function does not exist" reply at
status 500, with no hook event recorded — so it happens before the pre-call
hook and hooks never observe unknown calls. -/
theorem c6_unknown_call (cfg : ApiConfig) (ctx : ContextRequest)
    (h : cfg.functionTable.contains ctx.name = false ∨ cfg.fn ctx.name = none) :
    processPost cfg ctx =
      ([], writeReply (some ctx)
        { result := none
          error := some (fatalError ("Function does not exist: " ++ ctx.name)) }) ∧
    (processPost cfg ctx).1 = [] ∧
    (processPost cfg ctx).2.status = 500 := by
  have hmain := processPost_unknown cfg ctx h
  refine ⟨hmain, ?_, ?_⟩
  · rw [hmain]
  · rw [hmain]
    exact writeReply_status_fatal ctx _ _ rfl (makeResponseError_fatal_type _)

/-- Witness for C6: a request for the unregistered call `nope` against the
empty config is answered with status 500. -/
theorem c6_unknown_call_witness :
    (processPost exMissingCfg exMissingCtx).2.status = 500 :=
  (c6_unknown_call exMissingCfg exMissingCtx (Or.inl rfl)).2.2

/-- Claim C7: a failure raised by the pre-call hook, the argument decode,
the implementation, or the result encode is caught by the try block and
converted into the error reply `{error: e}`; when the post-call hook
completes normally the dispatcher therefore still hands a reply to the
with-context (version-appropriate) response writer instead of letting the
raw failure escape to the transport layer. -/
theorem c7_failure_containment (cfg : ApiConfig) (ctx : ContextRequest)
    (impl : ContextRequest → Json → Except SdkError Json) (e : SdkError)
    (himpl : cfg.fn ctx.name = some impl)
    (htab : cfg.functionTable.contains ctx.name = true)
    (hfail : stepFailure cfg ctx impl e)
    (hEnd : ∀ r, ∃ r2, cfg.hook.onRequestEnd ctx r = .ok r2) :
    (tryBlock cfg ctx impl).2 = { result := none, error := some e } ∧
    ∃ rep, (processPost cfg ctx).2 = writeReply (some ctx) rep := by
  have htry : (tryBlock cfg ctx impl).2 = { result := none, error := some e } := by
    rcases hfail with h1 | ⟨h1, h2⟩ | ⟨args, h1, h2, h3⟩ | ⟨args, ret, h1, h2, h3, h4⟩ <;>
      simp [tryBlock, h1, *]
  obtain ⟨r2, hr2⟩ := hEnd (tryBlock cfg ctx impl).2
  refine ⟨htry, ⟨enforceThrows cfg.operations ctx.name
    (r2.getD (tryBlock cfg ctx impl).2), ?_⟩⟩
  rw [processPost_known cfg ctx impl htab himpl, hr2]

/-- Witness for C7: with a decoder that always throws, the try block yields
the converted error reply and the response is still written with the
context. -/
theorem c7_failure_containment_witness :
    (tryBlock exStepCfg exStepCtx exStepImpl).2 =
      { result := none, error := some exDecodeErr } ∧
    ∃ rep, (processPost exStepCfg exStepCtx).2 = writeReply (some exStepCtx) rep :=
  c7_failure_containment exStepCfg exStepCtx exStepImpl exDecodeErr rfl rfl
    (Or.inr (Or.inl ⟨rfl, rfl⟩)) (fun _ => ⟨none, rfl⟩)

/-- Claim C10: a failure thrown by `onRequestEnd` is not caught by the
dispatcher's try block (which precedes it); it escapes to the per-connection
catch, and the client receives the fixed contextless `{error}` fallback at
status 500 — not the version-specific envelope — and no per-call log line is
produced. -/
theorem c10_hook_end_escape (cfg : ApiConfig) (ctx : ContextRequest)
    (impl : ContextRequest → Json → Except SdkError Json) (e : SdkError)
    (himpl : cfg.fn ctx.name = some impl)
    (htab : cfg.functionTable.contains ctx.name = true)
    (hEnd : cfg.hook.onRequestEnd ctx (tryBlock cfg ctx impl).2 = .error e) :
    (processPost cfg ctx).2 = writeReply none { result := none, error := some e } ∧
    (processPost cfg ctx).2.status = 500 ∧
    (processPost cfg ctx).2.envelope = .contextless (makeResponseError e) ∧
    (processPost cfg ctx).2.logged = none := by
  have hmain : (processPost cfg ctx).2 =
      writeReply none { result := none, error := some e } := by
    rw [processPost_known cfg ctx impl htab himpl, hEnd]
  refine ⟨hmain, ?_, ?_, ?_⟩ <;> rw [hmain] <;> simp [writeReply]

/-- Witness for C10: a post-call hook that always throws yields the
contextless 500 fallback. -/
theorem c10_hook_end_escape_witness :
    (processPost exEndCfg exStepCtx).2.status = 500 :=
  (c10_hook_end_escape exEndCfg exStepCtx exStepImpl exEndErr rfl rfl rfl).2.1

/-- Counterexample to claim C3: on the end-to-end pipeline for call `foo`
(declared throws `NotFound`, implementation failing with type `Other`) the
per-call log line records the rewritten type `Fatal`, not the original
pre-enforcement type `Other` — enforcement happens before `writeReply`, and
`writeReply` both logs and transmits the already-rewritten reply. -/
theorem c3_log_counterexample :
    (processPost exThrowsCfg exThrowsCtx).2.logged = some "Fatal" ∧
    (processPost exThrowsCfg exThrowsCtx).2.logged ≠ some "Other" ∧
    envelopeError (processPost exThrowsCfg exThrowsCtx).2.envelope =
      some { type := "Fatal", message := "boom" } := by
  refine ⟨rfl, ?_, rfl⟩
  intro hcontra
  have h1 : (processPost exThrowsCfg exThrowsCtx).2.logged = some "Fatal" := rfl
  rw [h1] at hcontra
  exact absurd (Option.some.inj hcontra) (by decide)

/-- Claim C3 (amended): the rewrite of an undeclared error type happens
before transmission *and before logging*: for every error reply whose type
is outside the call's non-empty declared-throws set, the per-call log line
records the rewritten type `Fatal` — the same type the transmitted envelope
carries — not the original one. -/
theorem c3_log_shows_enforced_type (ops : List Operation) (ctx : ContextRequest)
    (reply : ContextReply) (err : SdkError) (op : Operation)
    (hv : ctx.version = 1 ∨ ctx.version = 2 ∨ ctx.version = 3)
    (herr : reply.error = some err)
    (hop : ops.find? (fun o => o.name == ctx.name) = some op)
    (hne : allowedErrorsOf op ≠ [])
    (hmem : (allowedErrorsOf op).contains err.type = false) :
    (writeReply (some ctx) (enforceThrows ops ctx.name reply)).logged =
      some "Fatal" ∧
    envelopeError
      (writeReply (some ctx) (enforceThrows ops ctx.name reply)).envelope =
      some (makeResponseError { err with type := "Fatal" }) := by
  have hlen : 0 < (allowedErrorsOf op).length := List.length_pos.mpr hne
  have hnotin : err.type ∉ allowedErrorsOf op := by
    intro hin
    have helem : (allowedErrorsOf op).contains err.type = true :=
      List.elem_iff.mpr hin
    rw [helem] at hmem
    cases hmem
  have henf : enforceThrows ops ctx.name reply =
      { result := reply.result, error := some { err with type := "Fatal" } } := by
    unfold enforceThrows
    rw [herr, hop]
    simp [hlen, hmem, hnotin]
  rw [henf]
  have hfat : (makeResponseError { err with type := "Fatal" }).type = "Fatal" := by
    simp [makeResponseError]
  constructor
  · rcases hv with hv | hv | hv <;> simp [writeReply, hv, hfat]
  · rcases hv with hv | hv | hv <;> simp [writeReply, hv, envelopeError]

/-- Witness for C3 (amended): on the concrete `foo`/`Other` fixture both the
log token and the transmitted envelope show `Fatal`. -/
theorem c3_log_shows_enforced_type_witness :
    (writeReply (some exThrowsCtx)
      (enforceThrows exThrowsOps exThrowsCtx.name { error := some exOtherErr })).logged =
      some "Fatal" :=
  (c3_log_shows_enforced_type exThrowsOps exThrowsCtx { error := some exOtherErr }
    exOtherErr { name := "foo", anns := [.throwsAnn "NotFound"] }
    (Or.inr (Or.inr rfl)) rfl rfl (by decide) (by decide)).1
